import Mathlib

/-!
Verification of the go-rst core (stringlist.go and statemachine.go):
a shallow embedding of the ViewList / StringList hierarchical line-list
and of the StateMachine engine, with theorems settling the spec claims.

Machine integers (Go int) are modelled as Int; Go runtime panics
(out-of-range slice/array indexing, nil dereference, the explicit
panic in Init) are modelled as a dedicated result constructor or as
Option.none, stated at each definition.
-/

/-- Mirrors ViewListItem in stringlist.go: the (source, offset) provenance
of one line. -/
structure ViewListItem where
  source : String
  offset : Int
deriving DecidableEq, Repr

/-- Go error values of error.go that the embedded operations return. -/
inductive GoErr where
  | indexError
  | unexpectedIndentationError
  | unknownStateError
  | eofError
deriving DecidableEq, Repr

/-- Mirrors the ViewList struct of stringlist.go at the value level:
data, items, the parent pointer (root = nil parent) and parentOffset.
The parent chain is represented structurally, so mutations that the code
propagates with parent.SetItem etc. rebuild the parent component. -/
inductive ViewList : Type where
  | root (data : List String) (items : List ViewListItem) (parentOffset : Int)
  | child (data : List String) (items : List ViewListItem) (parent : ViewList) (parentOffset : Int)
deriving DecidableEq, Repr

/-- The data field of a ViewList. -/
def dataOf : ViewList → List String
  | .root data _ _ => data
  | .child data _ _ _ => data

/-- The items field of a ViewList. -/
def itemsOf : ViewList → List ViewListItem
  | .root _ items _ => items
  | .child _ items _ _ => items

/-- The parent field of a ViewList (none for a root view, mirroring
a nil parent pointer). -/
def parentOf : ViewList → Option ViewList
  | .root _ _ _ => none
  | .child _ _ p _ => some p

/-- The parentOffset field of a ViewList. -/
def parentOffsetOf : ViewList → Int
  | .root _ _ off => off
  | .child _ _ _ off => off

/-- Mirrors ViewList.Length: len(v.data). -/
def lengthVL (v : ViewList) : Nat := (dataOf v).length

/-- Mirrors ViewList.Init of stringlist.go: when items is nil the
(source, i) pairs are auto-numbered; the final len(data) == len(items)
check panics ("data mismatch") on failure, modelled as none. -/
def InitVL (initlist : List String) (source : String) (items : Option (List ViewListItem))
    (parent : Option ViewList) (parentOffset : Int) : Option ViewList :=
  let its : List ViewListItem :=
    match items with
    | none => initlist.enum.map (fun p => ⟨source, (p.1 : Int)⟩)
    | some its => its
  if initlist.length = its.length then
    some (match parent with
      | none => ViewList.root initlist its parentOffset
      | some p => ViewList.child initlist its p parentOffset)
  else
    none

/-- Mirrors StringList.GetItem of stringlist.go: bounds-checked, returns
an IndexError outside [0, len). -/
def GetItem (v : ViewList) (index : Int) : Except GoErr String :=
  if index < (lengthVL v : Int) ∧ 0 ≤ index then
    Except.ok ((dataOf v).getD index.toNat "")
  else
    Except.error GoErr.indexError

/-- Mirrors ViewList.SetItem of stringlist.go: v.data[index] = item with no
bounds check (a Go out-of-range panic is none), then the recursive
propagation parent.SetItem(index+parentOffset, item) up the whole chain. -/
def SetItem : ViewList → Int → String → Option ViewList
  | .root data items off, i, x =>
    if 0 ≤ i ∧ i < (data.length : Int) then
      some (.root (data.set i.toNat x) items off)
    else
      none
  | .child data items p off, i, x =>
    if 0 ≤ i ∧ i < (data.length : Int) then
      match SetItem p (i + off) x with
      | none => none
      | some p' => some (.child (data.set i.toNat x) items p' off)
    else
      none

/-- Mirrors ViewList.GetItemsSlice of stringlist.go:
vl.Init(v.data[start:stop], "", v.items, v, start). Note the source passes
the parent's FULL items list, not its [start:stop] sub-slice; an invalid
Go slice bound is a panic, modelled as none (as is Init's own panic). -/
def GetItemsSlice (v : ViewList) (start stop : Int) : Option ViewList :=
  if 0 ≤ start ∧ start ≤ stop ∧ stop ≤ (lengthVL v : Int) then
    InitVL (((dataOf v).take stop.toNat).drop start.toNat) "" (some (itemsOf v)) (some v) start
  else
    none

/-- Mirrors ViewList.TrimStart of stringlist.go: IndexError when n > length
or n < 0, otherwise drop n items from the front, local only, advancing
parentOffset by n when a parent link exists. -/
def TrimStart (v : ViewList) (n : Int) : Except GoErr ViewList :=
  if (lengthVL v : Int) < n then
    Except.error GoErr.indexError
  else if n < 0 then
    Except.error GoErr.indexError
  else
    match v with
    | .root data items off =>
      Except.ok (.root (data.drop n.toNat) (items.drop n.toNat) off)
    | .child data items p off =>
      Except.ok (.child (data.drop n.toNat) (items.drop n.toNat) p (off + n))

/-- Mirrors ViewList.TrimEnd of stringlist.go: IndexError when n > length
or n < 0, otherwise drop n items from the back, local only, leaving
parentOffset unchanged. -/
def TrimEnd (v : ViewList) (n : Int) : Except GoErr ViewList :=
  if (lengthVL v : Int) < n then
    Except.error GoErr.indexError
  else if n < 0 then
    Except.error GoErr.indexError
  else
    match v with
    | .root data items off =>
      Except.ok (.root (data.take (data.length - n.toNat)) (items.take (items.length - n.toNat)) off)
    | .child data items p off =>
      Except.ok (.child (data.take (data.length - n.toNat)) (items.take (items.length - n.toNat)) p off)

/-- Result of ViewList.Info: a normal (item, nil) return, an IndexError
return, or a Go runtime panic from a negative items index. -/
inductive InfoRes where
  | ok (it : ViewListItem)
  | indexErr
  | panics
deriving DecidableEq, Repr

/-- Mirrors ViewList.Info of stringlist.go. The source first tests
i < len(v.items) and then executes v.items[i], which panics for negative i;
the i == len(v.data) case executes v.items[i-1], which panics when the list
is empty. Both panics are the InfoRes.panics constructor. -/
def Info (v : ViewList) (i : Int) : InfoRes :=
  if i < ((itemsOf v).length : Int) then
    if 0 ≤ i then
      match (itemsOf v).get? i.toNat with
      | some it => InfoRes.ok it
      | none => InfoRes.panics
    else
      InfoRes.panics
  else if i = ((dataOf v).length : Int) then
    if 1 ≤ i then
      match (itemsOf v).get? (i - 1).toNat with
      | some it => InfoRes.ok ⟨it.source, -1⟩
      | none => InfoRes.panics
    else
      InfoRes.panics
  else
    InfoRes.indexErr

/-- The source id of the last item of a view (used to state the
just-past-the-end behaviour of Info). -/
def lastSource (v : ViewList) : String :=
  match (itemsOf v).getLast? with
  | some it => it.source
  | none => ""

/-- Mirrors ViewList.Disconnect of stringlist.go: clears the parent link;
the value-level view keeps its current content and becomes a root. -/
def Disconnect : ViewList → ViewList
  | .root data items off => .root data items off
  | .child data items _ off => .root data items off

/-- Mirrors Go's unicode.IsSpace on the byte/Latin-1 range, which is what
strings.TrimSpace strips. -/
def goIsSpace (c : Char) : Bool :=
  c = ' ' ∨ c = '\t' ∨ c = '\n' ∨ c = (Char.ofNat 11) ∨ c = (Char.ofNat 12) ∨ c = '\r' ∨
    c = (Char.ofNat 0x85) ∨ c = (Char.ofNat 0xA0)

/-- strings.TrimSpace(line) == "" : every character of the line is
whitespace. -/
def isBlankGo (line : String) : Bool :=
  line.data.all goIsSpace

/-- Result of StringList.GetTextBlock: a block, an
UnexpectedIndentationError, or a Go runtime panic (line[0] on an empty
string, or an invalid slice bound). -/
inductive GTBRes where
  | ok (block : ViewList)
  | indentErr
  | panics
deriving DecidableEq, Repr

/-- The scanning loop of StringList.GetTextBlock, over the lines from the
start position: the source breaks out of the loop when
strings.TrimSpace(line) != "" (note the inverted sense), then under
flushLeft reads line[0] — a panic (none) when the line is empty — and
returns an UnexpectedIndentationError when that byte is a space; otherwise
it advances. Returns the number of scanned lines. -/
def gtbScan (flushLeft : Bool) : List String → Option (Except Unit Nat)
  | [] => some (Except.ok 0)
  | line :: rest =>
    if ¬ isBlankGo line then
      some (Except.ok 0)
    else if flushLeft then
      match line.data with
      | [] => none
      | c :: _ =>
        if c = ' ' then some (Except.error ())
        else (gtbScan flushLeft rest).map (Except.map (· + 1))
    else
      (gtbScan flushLeft rest).map (Except.map (· + 1))

/-- Mirrors StringList.GetTextBlock of stringlist.go: scan from start, then
result.Init(s.data[start:end], "", s.items[start:end], s.parent,
s.parentOffset). -/
def GetTextBlock (s : ViewList) (start : Int) (flushLeft : Bool) : GTBRes :=
  if 0 ≤ start ∧ start ≤ (lengthVL s : Int) then
    match gtbScan flushLeft ((dataOf s).drop start.toNat) with
    | none => GTBRes.panics
    | some (Except.error _) => GTBRes.indentErr
    | some (Except.ok k) =>
      match InitVL (((dataOf s).drop start.toNat).take k) ""
          (some (((itemsOf s).drop start.toNat).take k)) (parentOf s) (parentOffsetOf s) with
      | none => GTBRes.panics
      | some b => GTBRes.ok b
  else
    GTBRes.panics

/-- Structural well-formedness of a parent chain: each linked view maps its
whole index range into its parent (the shape produced by the documented
lifecycle: slicing then trimming). -/
def chainOk : ViewList → Bool
  | .root _ _ _ => true
  | .child data _ p off =>
    decide (0 ≤ off) && decide ((data.length : Int) + off ≤ (lengthVL p : Int)) && chainOk p

/-- Helper for stating propagation: the list holds x at (integer) index i. -/
def holdsAt (l : List String) (i : Int) (x : String) : Bool :=
  decide (0 ≤ i) &&
    (match l.get? i.toNat with
     | some y => decide (y = x)
     | none => false)

/-- The view and every ancestor up its chain holds x at the
parentOffset-translated index. -/
def seesAt : ViewList → Int → String → Bool
  | .root data _ _, i, x => holdsAt data i x
  | .child data _ p off, i, x => holdsAt data i x && seesAt p (i + off) x

/-!
Aliasing model. The frame-effect claim about Disconnect depends on Go slice
semantics: a ViewList created by GetItemsSlice holds sub-slices of its
parent's data and items slices, and a slice is a (backing array, start,
length) header, so in-place writes through the child are visible through
the parent header even with the parent pointer cleared. The definitions
below embed the same source functions over that explicit representation:
a memory of backing arrays and of ViewList objects addressed by index.
-/

/-- A Go slice header: backing-array id, start offset in the array, and
length. -/
structure GoSliceH where
  arr : Nat
  start : Nat
  len : Nat
deriving DecidableEq, Repr

/-- A ViewList object in the aliasing model: data and items slice headers,
parent object id (none = nil) and parentOffset, mirroring the struct
fields. -/
structure VLObj where
  data : GoSliceH
  items : GoSliceH
  parent : Option Nat
  parentOffset : Int
deriving DecidableEq, Repr

/-- The memory: string backing arrays, item backing arrays, and the
ViewList objects. -/
structure Mem where
  strArrays : List (List String)
  itemArrays : List (List ViewListItem)
  objs : List VLObj
deriving DecidableEq, Repr

/-- Read index i of a string slice (Go s[i]); none models the
index-out-of-range panic. -/
def readSlice (m : Mem) (s : GoSliceH) (i : Nat) : Option String :=
  if i < s.len then
    match m.strArrays.get? s.arr with
    | none => none
    | some a => a.get? (s.start + i)
  else
    none

/-- Write index i of a string slice in place (Go s[i] = x); none models the
index-out-of-range panic. -/
def writeSlice (m : Mem) (s : GoSliceH) (i : Nat) (x : String) : Option Mem :=
  if i < s.len then
    match m.strArrays.get? s.arr with
    | none => none
    | some a =>
      some { m with strArrays := m.strArrays.set s.arr (a.set (s.start + i) x) }
  else
    none

/-- Mirrors ViewList.GetItem in the aliasing model (bounds-checked read of
v.data[index], as in stringlist.go). -/
def GetItemH (m : Mem) (oid : Nat) (index : Int) : Option String :=
  match m.objs.get? oid with
  | none => none
  | some o =>
    if 0 ≤ index ∧ index < (o.data.len : Int) then
      readSlice m o.data index.toNat
    else
      none

/-- Mirrors ViewList.SetItem in the aliasing model: write v.data[index] in
place, then propagate to the parent object at index+parentOffset. The fuel
bounds the parent-chain recursion; none models a Go panic (or exhausted
fuel). -/
def SetItemH : Nat → Mem → Nat → Int → String → Option Mem
  | 0, _, _, _, _ => none
  | fuel + 1, m, oid, index, x =>
    match m.objs.get? oid with
    | none => none
    | some o =>
      if 0 ≤ index ∧ index < (o.data.len : Int) then
        match writeSlice m o.data index.toNat x with
        | none => none
        | some m1 =>
          match o.parent with
          | none => some m1
          | some pid => SetItemH fuel m1 pid (index + o.parentOffset) x
      else
        none

/-- Mirrors ViewList.GetItemsSlice in the aliasing model: the child's data
header is the [start, stop) sub-slice of the parent's data header, its
items header is the parent's FULL items header (as in the source), parent
id set, parentOffset = start; Init's len(data) == len(items) panic is
none. Returns the new object's id. -/
def GetItemsSliceH (m : Mem) (oid : Nat) (start stop : Int) : Option (Mem × Nat) :=
  match m.objs.get? oid with
  | none => none
  | some o =>
    if 0 ≤ start ∧ start ≤ stop ∧ stop ≤ (o.data.len : Int) then
      let newData : GoSliceH := ⟨o.data.arr, o.data.start + start.toNat, (stop - start).toNat⟩
      if (stop - start).toNat = o.items.len then
        some ({ m with objs := m.objs ++ [⟨newData, o.items, some oid, start⟩] }, m.objs.length)
      else
        none
    else
      none

/-- Mirrors ViewList.Disconnect in the aliasing model: clears the parent
pointer of the object, nothing else. -/
def DisconnectH (m : Mem) (oid : Nat) : Option Mem :=
  match m.objs.get? oid with
  | none => none
  | some o =>
    some { m with objs := m.objs.set oid { o with parent := none } }

/-!
Engine model (statemachine.go). Context is string in the source. The
compiled regular expression of a transition is embedded as its
FindAllString behaviour, a function from the line to the list of matches
(nil = no match); the dynamically dispatched handler methods (bof, eof,
noMatch and the per-transition methods, resolved by reflection in the
source and overridable in the docutils design) are function-valued fields.
-/

/-- Context is application storage; the source declares type Context
string. -/
def Context : Type := String

instance : DecidableEq Context := String.decEq

/-- Mirrors the Transition struct: compiled pattern (as its FindAllString
behaviour), transition method, next state name. -/
structure Transition where
  compiledPattern : String → List String
  transitionMethod : List String → Context → String → Context × String × List String
  nextStateName : String

/-- Mirrors the State struct: transition search order, the name-to-
transition map (an association list), and the bof / eof / noMatch
handlers. -/
structure State where
  transitionOrder : List String
  transitions : List (String × Transition)
  bof : Context → Context × List String
  eof : Context → List String
  noMatch : Context → List String → Context × String × List String

/-- The default State.noMatch of the source: context unchanged, "" (the
no-state-change sentinel), empty result. -/
def noMatchDefault (context : Context) (_transitions : List String) :
    Context × String × List String :=
  (context, "", [])

/-- The default State.bof of the source: unchanged context, empty
result. -/
def bofDefault (context : Context) : Context × List String :=
  (context, [])

/-- The default State.eof of the source: empty result. -/
def eofDefault (_context : Context) : List String :=
  []

/-- Mirrors the StateMachine struct fields used by run. Observers are
opaque tokens: the source calls each with (source, offset) data and the
calls have no effect on the machine itself. -/
structure StateMachine where
  inputLines : ViewList
  inputOffset : Int
  line : String
  lineOffset : Int
  initialState : String
  currentState : String
  states : List (String × State)
  observers : List Nat

/-- Mirrors StateMachine.getState: set currentState when a non-empty next
state name is given, then look it up; an unregistered name is the
UnknownStateError return. -/
def getState (sm : StateMachine) (nextState : String) : StateMachine × Except GoErr State :=
  let sm1 := if nextState ≠ "" then { sm with currentState := nextState } else sm
  match List.lookup sm1.currentState sm1.states with
  | some st => (sm1, Except.ok st)
  | none => (sm1, Except.error GoErr.unknownStateError)

/-- Mirrors StateMachine.notifyObservers: each observer is called with the
Info of the current line offset, or ("", -1) on an IndexError; an Info
panic aborts the program (none). With no observers Info is never
evaluated. -/
def notifyObs (sm : StateMachine) : Option Unit :=
  if sm.observers.isEmpty then
    some ()
  else
    match Info sm.inputLines sm.lineOffset with
    | InfoRes.panics => none
    | _ => some ()

/-- Mirrors StateMachine.nextLine: advance lineOffset by n; inside the
bound load the line (a negative index would be a panic, none) and notify;
past the bound clear the line, notify, and return the EOFError. -/
def nextLine (sm : StateMachine) (n : Int) : Option (StateMachine × Except GoErr String) :=
  let off := sm.lineOffset + n
  if off < (lengthVL sm.inputLines : Int) then
    if 0 ≤ off then
      match (dataOf sm.inputLines).get? off.toNat with
      | none => none
      | some ln =>
        let sm1 := { sm with lineOffset := off, line := ln }
        match notifyObs sm1 with
        | none => none
        | some _ => some (sm1, Except.ok ln)
    else
      none
  else
    let sm1 := { sm with lineOffset := off, line := "" }
    match notifyObs sm1 with
    | none => none
    | some _ => some (sm1, Except.error GoErr.eofError)

/-- The transition scan of StateMachine.checkLine: walk the given name
list; a name missing from the transitions map yields the zero Transition,
whose nil compiled pattern panics when used (none); the first name whose
pattern matches (FindAllString != nil) has its method invoked; with no
match, state.noMatch is called with the name list. -/
def checkLoop (st : State) (line : String) (context : Context) (all : List String) :
    List String → Option (Context × String × List String)
  | [] => some (st.noMatch context all)
  | name :: rest =>
    match List.lookup name st.transitions with
    | none => none
    | some t =>
      if t.compiledPattern line ≠ [] then
        some (t.transitionMethod (t.compiledPattern line) context t.nextStateName)
      else
        checkLoop st line context all rest

/-- Mirrors StateMachine.checkLine: a nil state dereferences
state.transitionOrder, a panic (none); a nil transitions argument (as
passed by run) means the state's own transitionOrder is used. -/
def checkLineGo (sm : StateMachine) (context : Context) (stO : Option State)
    (transitionsO : Option (List String)) : Option (Context × String × List String) :=
  match stO with
  | none => none
  | some st =>
    let ts := transitionsO.getD st.transitionOrder
    checkLoop st sm.line context ts ts

/-- Calling bof through a possibly-nil state pointer: the source's
state.bof on a nil *State runs the default method body, which never
dereferences the receiver. -/
def bofCall : Option State → Context → Context × List String
  | some st, context => st.bof context
  | none, context => bofDefault context

/-- Calling eof through a possibly-nil state pointer, as for bofCall. -/
def eofCall : Option State → Context → List String
  | some st, context => st.eof context
  | none, context => eofDefault context

/-- Outcome of StateMachine.run: a normal return with the final machine
and the local results accumulator (the Go func has no return value and
drops it), a runtime panic, or exhausted fuel (never reached with the fuel
run supplies). -/
inductive RunOutcome where
  | normal (sm : StateMachine) (results : List String)
  | panics
  | fuelOut

/-- The main loop of StateMachine.run. Each iteration advances one line;
at EOFError the current state's eof result is appended and the loop ends;
otherwise checkLine runs and — mirroring the source's
results = append(result, result...) — the accumulator is REPLACED by the
line's result doubled; then state, _ = getState(nextState) discards the
UnknownStateError, leaving a nil state. -/
def runLoop : Nat → StateMachine → Option State → Context → List String → RunOutcome
  | 0, _, _, _, _ => RunOutcome.fuelOut
  | fuel + 1, sm, stO, context, results =>
    match nextLine sm 1 with
    | none => RunOutcome.panics
    | some (sm1, Except.error _) =>
      RunOutcome.normal sm1 (results ++ eofCall stO context)
    | some (sm1, Except.ok _) =>
      match checkLineGo sm1 context stO none with
      | none => RunOutcome.panics
      | some (context1, nextState, result) =>
        let results1 := result ++ result
        let p := getState sm1 nextState
        runLoop fuel p.1 p.2.toOption context1 results1

/-- Mirrors StateMachine.run: store the input, reset lineOffset to -1,
select the starting state (override or declared initial), run bof, then
the loop. The fuel lines+1 covers every iteration the loop can make. -/
def run (sm0 : StateMachine) (inputLines : ViewList) (inputOffset : Int) (context : Context)
    (initialState : String) : RunOutcome :=
  let sm := { sm0 with
    inputLines := inputLines, inputOffset := inputOffset, lineOffset := -1,
    currentState := if initialState = "" then sm0.initialState else initialState }
  let p := getState sm ""
  let stO := p.2.toOption
  let q := bofCall stO context
  runLoop (lengthVL inputLines + 1) p.1 stO q.1 q.2

/-!
Concrete inputs used by the theorems and witnesses below.
-/

/-- The lines of the spec's getTextBlock example. -/
def c2view : ViewList :=
  ViewList.root ["foo", "  bar", ""] [⟨"s", 0⟩, ⟨"s", 1⟩, ⟨"s", 2⟩] 0

/-- A one-line view whose single line is the empty string. -/
def c10view : ViewList := ViewList.root [""] [⟨"s", 0⟩] 0

/-- A two-line root view. -/
def c3view : ViewList := ViewList.root ["a", "b"] [⟨"s", 0⟩, ⟨"s", 1⟩] 0

/-- A one-line root view. -/
def c6view : ViewList := ViewList.root ["a"] [⟨"s", 0⟩] 0

/-- A two-line child over a four-line root at offset 1, a well-formed
chain. -/
def c8view : ViewList :=
  ViewList.child ["a", "b"] [⟨"s", 1⟩, ⟨"s", 2⟩]
    (ViewList.root ["x", "a", "b", "y"] [⟨"s", 0⟩, ⟨"s", 1⟩, ⟨"s", 2⟩, ⟨"s", 3⟩] 0) 1

/-- A three-line child over a three-line root. -/
def c9view : ViewList :=
  ViewList.child ["a", "b", "c"] [⟨"s", 0⟩, ⟨"s", 1⟩, ⟨"s", 2⟩]
    (ViewList.root ["a", "b", "c"] [⟨"s", 0⟩, ⟨"s", 1⟩, ⟨"s", 2⟩] 0) 0

/-- Aliasing-model memory holding one backing array ["a"] and its root
view object (object 0). -/
def c5mem0 : Mem :=
  ⟨[["a"]], [[⟨"s", 0⟩]], [⟨⟨0, 0, 1⟩, ⟨0, 0, 1⟩, none, 0⟩]⟩

/-- A state with one transition T whose pattern matches the line "a" and
whose method names the unregistered next state "S2". -/
def c4state : State :=
  { transitionOrder := ["T"],
    transitions := [("T",
      { compiledPattern := fun s => if s = "a" then ["a"] else [],
        transitionMethod := fun _ context _ => (context, "S2", ["hit"]),
        nextStateName := "S2" })],
    bof := bofDefault, eof := eofDefault, noMatch := noMatchDefault }

/-- An engine whose only registered state is S1 = c4state. -/
def c4sm : StateMachine :=
  { inputLines := ViewList.root [] [] 0, inputOffset := 0, line := "", lineOffset := -1,
    initialState := "S1", currentState := "S1", states := [("S1", c4state)], observers := [] }

/-- The A-transition of the claim example: pattern matches only "x", next
state S2. -/
def c7tA : Transition :=
  { compiledPattern := fun s => if s = "x" then ["x"] else [],
    transitionMethod := fun _ context _ => (context, "S2", ["aout"]),
    nextStateName := "S2" }

/-- The B-transition of the claim example: pattern matches only "b", and
its method returns "" — the source's no-state-change (stay) sentinel. -/
def c7tB : Transition :=
  { compiledPattern := fun s => if s = "b" then ["b"] else [],
    transitionMethod := fun _ context _ => (context, "", ["bout"]),
    nextStateName := "" }

/-- A state with transition order [A, B] over c7tA and c7tB. -/
def c7st : State :=
  { transitionOrder := ["A", "B"],
    transitions := [("A", c7tA), ("B", c7tB)],
    bof := bofDefault, eof := eofDefault, noMatch := noMatchDefault }

/-- An engine in state S1 whose current line is "b". -/
def c7sm : StateMachine :=
  { inputLines := ViewList.root [] [] 0, inputOffset := 0, line := "b", lineOffset := -1,
    initialState := "S1", currentState := "S1", states := [("S1", c7st)], observers := [] }

/-- An engine with a registered initial state and one observer. -/
def c1sm : StateMachine :=
  { inputLines := ViewList.root [] [] 0, inputOffset := 0, line := "", lineOffset := -1,
    initialState := "S1", currentState := "S1", states := [("S1", c4state)], observers := [3] }

/-- Helper: setting an element and reading it back at the same index. -/
theorem list_get?_set_self {α : Type} (l : List α) (i : Nat) (x : α) (h : i < l.length) :
    (l.set i x).get? i = some x := by
  rw [List.get?_eq_getElem?, List.getElem?_set_self', List.getElem?_eq_getElem h]
  rfl

/-!
Theorems settling the claims.
-/

/-- C2: over the lines ["foo", "  bar", ""], GetTextBlock(0, true) does NOT
fail with an indentation error and GetTextBlock(0, false) does NOT return
the 2-line block — the source's scan loop breaks on the first NON-blank
line (the blank test is inverted), so both calls return an empty block.
This evaluates the embedded code at the claim's own example. -/
theorem c2_textblock_inverted_scan :
    GetTextBlock c2view 0 true = GTBRes.ok (ViewList.root [] [] 0) ∧
    GetTextBlock c2view 0 false = GTBRes.ok (ViewList.root [] [] 0) ∧
    GTBRes.ok (ViewList.root [] [] 0) ≠ GTBRes.indentErr ∧
    lengthVL (ViewList.root [] [] 0) = 0 := by
  decide

/-- C10: GetTextBlock is not total: on a view whose first line is the
empty string, the flush-left check reads character 0 of that line and the
program panics with an index-out-of-range; without flushLeft the same call
returns normally. -/
theorem c10_textblock_empty_line_panics :
    GetTextBlock c10view 0 true = GTBRes.panics ∧
    GetTextBlock c10view 0 false ≠ GTBRes.panics := by
  decide

/-- C3: slicing the proper sub-range [0, 1) of a 2-line view does not
produce a child view at all: the source hands Init the data sub-slice but
the parent's FULL items list, the len(data) == len(items) check fails and
Init panics ("data mismatch"). Only a full-length slice such as [0, 2)
succeeds, and then only because items is the whole list. -/
theorem c3_slice_items_mismatch_panics :
    GetItemsSlice c3view 0 1 = none ∧
    GetItemsSlice c3view 0 2 =
      some (ViewList.child ["a", "b"] [⟨"s", 0⟩, ⟨"s", 1⟩] c3view 0) := by
  decide

/-- C5: in the aliasing model of Go slices, a child made by slicing, then
disconnected, still mutates the former parent: the child's data slice
shares the parent's backing array, so SetItem's in-place write changes
what the parent reads, even though the parent pointer is nil and no
propagation happens. The former parent's line 0 changes from "a" to
"x". -/
theorem c5_disconnected_child_still_mutates_parent :
    ∃ m1 m2 m3,
      GetItemsSliceH c5mem0 0 0 1 = some (m1, 1) ∧
      DisconnectH m1 1 = some m2 ∧
      (m2.objs.get? 1).map VLObj.parent = some none ∧
      SetItemH 2 m2 1 0 "x" = some m3 ∧
      GetItemH c5mem0 0 0 = some "a" ∧
      GetItemH m3 0 0 = some "x" := by
  exact ⟨_, _, _, rfl, rfl, rfl, rfl, rfl, rfl⟩

/-- C4: the run does not fail fatally with UnknownStateError when a
handler names an unregistered next state: run discards getState's error
(state, _ = s.getState(nextState)). On ["a", "b"] the nil state is
dereferenced by checkLine at the SECOND line, a runtime panic, not an
UnknownStateError; on ["a"] the run even terminates normally, with the
engine's current state left as the unregistered "S2". -/
theorem c4_unknown_state_not_fatal :
    run c4sm (ViewList.root ["a", "b"] [⟨"s", 0⟩, ⟨"s", 1⟩] 0) 0 "" "" = RunOutcome.panics ∧
    ∃ sm1 res, run c4sm (ViewList.root ["a"] [⟨"s", 0⟩] 0) 0 "" "" = RunOutcome.normal sm1 res ∧
      sm1.currentState = "S2" := by
  exact ⟨rfl, _, _, rfl, rfl⟩

/-- C6 counterexample: Info(-1) on a nonempty view does not return an
IndexError-kind result: the source tests i < len(items) first, so a
negative index reaches v.items[i] and panics. -/
theorem c6_negative_index_panics :
    Info c6view (-1) = InfoRes.panics ∧ Info c6view (-1) ≠ InfoRes.indexErr := by
  decide

/-- C6 (amended): for every view satisfying the len(data) == len(items)
invariant, info(n) at n = length returns (sourceId of the last item, -1)
when the view is nonempty, info(i) for i > n fails with an
IndexError-kind result, but for negative i — and for i = n = 0 on an
empty view — the code panics with an index-out-of-range instead of
returning an IndexError. -/
theorem c6_info_amended (v : ViewList) (n : Nat)
    (hn : (dataOf v).length = n) (hinv : (itemsOf v).length = n) :
    (0 < n → Info v (n : Int) = InfoRes.ok ⟨lastSource v, -1⟩) ∧
    (∀ i : Int, (n : Int) < i → Info v i = InfoRes.indexErr) ∧
    (∀ i : Int, i < 0 → Info v i = InfoRes.panics) ∧
    (n = 0 → Info v 0 = InfoRes.panics) := by
  refine ⟨?_, ?_, ?_, ?_⟩
  · intro hpos
    have h1 : ¬ ((n : Int) < ((itemsOf v).length : Int)) := by rw [hinv]; omega
    have h2 : (n : Int) = ((dataOf v).length : Int) := by omega
    have h3 : (1 : Int) ≤ (n : Int) := by omega
    have h4 : ((n : Int) - 1).toNat = n - 1 := by omega
    have h5 : n - 1 < (itemsOf v).length := by omega
    obtain ⟨it, hit⟩ : ∃ it, (itemsOf v).get? (n - 1) = some it := ⟨_, List.get?_eq_get h5⟩
    have hl : (itemsOf v).length - 1 = n - 1 := by omega
    have hlast : lastSource v = it.source := by
      rw [lastSource, List.getLast?_eq_get?, hl, hit]
    rw [Info, if_neg h1, if_pos h2, if_pos h3, h4, hit, hlast]
  · intro i hi
    have h1 : ¬ (i < ((itemsOf v).length : Int)) := by rw [hinv]; omega
    have h2 : ¬ (i = ((dataOf v).length : Int)) := by omega
    rw [Info, if_neg h1, if_neg h2]
  · intro i hi
    have h1 : i < ((itemsOf v).length : Int) := by omega
    have h2 : ¬ ((0 : Int) ≤ i) := by omega
    rw [Info, if_pos h1, if_neg h2]
  · intro h0
    subst h0
    have h1 : ¬ ((0 : Int) < ((itemsOf v).length : Int)) := by rw [hinv]; omega
    have h2 : (0 : Int) = ((dataOf v).length : Int) := by omega
    have h3 : ¬ ((1 : Int) ≤ (0 : Int)) := by omega
    rw [Info, if_neg h1, if_pos h2, if_neg h3]

/-- C8: for every well-formed view and in-range index, set(i, x) succeeds,
a subsequent get(i) returns x, and the written value is propagated through
the whole ancestor chain: every ancestor holds x at the
parentOffset-translated index. -/
theorem c8_set_then_get (v : ViewList) : ∀ (i : Int) (x : String),
    chainOk v = true → 0 ≤ i → i < (lengthVL v : Int) →
    ∃ v1, SetItem v i x = some v1 ∧ GetItem v1 i = Except.ok x ∧ seesAt v1 i x = true := by
  induction v with
  | root data items off =>
    intro i x hok h0 hi
    simp only [lengthVL, dataOf] at hi
    have hnat : i.toNat < data.length := by omega
    refine ⟨ViewList.root (data.set i.toNat x) items off, ?_, ?_, ?_⟩
    · rw [SetItem, if_pos ⟨h0, hi⟩]
    · rw [GetItem, if_pos ?_]
      · rw [dataOf, List.getD_eq_get?, list_get?_set_self data i.toNat x hnat]
        rfl
      · constructor
        · simp only [lengthVL, dataOf, List.length_set]; omega
        · exact h0
    · rw [seesAt, holdsAt, list_get?_set_self data i.toNat x hnat]
      simp [h0]
  | child data items p off ih =>
    intro i x hok h0 hi
    simp only [lengthVL, dataOf] at hi
    simp only [chainOk, Bool.and_eq_true, decide_eq_true_eq] at hok
    obtain ⟨⟨hoff, hlen⟩, hokp⟩ := hok
    have hnat : i.toNat < data.length := by omega
    obtain ⟨p1, hset, hget, hsee⟩ := ih (i + off) x hokp (by omega) (by omega)
    refine ⟨ViewList.child (data.set i.toNat x) items p1 off, ?_, ?_, ?_⟩
    · rw [SetItem, if_pos ⟨h0, hi⟩, hset]
    · rw [GetItem, if_pos ?_]
      · rw [dataOf, List.getD_eq_get?, list_get?_set_self data i.toNat x hnat]
        rfl
      · constructor
        · simp only [lengthVL, dataOf, List.length_set]; omega
        · exact h0
    · rw [seesAt, holdsAt, list_get?_set_self data i.toNat x hnat, hsee]
      simp [h0]

/-- C9: trimStart(a) then trimStart(b) with a + b ≤ length equals a single
trimStart(a + b); trimStart and trimEnd leave the parent untouched;
trimStart advances parentOffset by the trimmed count exactly when a parent
link exists while trimEnd leaves parentOffset unchanged; and both fail
with an IndexError when the count is negative or exceeds the length. -/
theorem c9_trim_algebra (v : ViewList) (a b m n : Int) :
    (0 ≤ a → 0 ≤ b → a + b ≤ (lengthVL v : Int) →
      ∃ v1 v2, TrimStart v a = Except.ok v1 ∧ TrimStart v1 b = Except.ok v2 ∧
        TrimStart v (a + b) = Except.ok v2) ∧
    (0 ≤ m → m ≤ (lengthVL v : Int) →
      ∃ v1, TrimStart v m = Except.ok v1 ∧ parentOf v1 = parentOf v ∧
        parentOffsetOf v1 =
          (if (parentOf v).isSome then parentOffsetOf v + m else parentOffsetOf v)) ∧
    (0 ≤ m → m ≤ (lengthVL v : Int) →
      ∃ v1, TrimEnd v m = Except.ok v1 ∧ parentOf v1 = parentOf v ∧
        parentOffsetOf v1 = parentOffsetOf v) ∧
    (n < 0 ∨ (lengthVL v : Int) < n →
      TrimStart v n = Except.error GoErr.indexError ∧
      TrimEnd v n = Except.error GoErr.indexError) := by
  refine ⟨?_, ?_, ?_, ?_⟩
  · intro ha hb hab
    cases v with
    | root data items off =>
      simp only [lengthVL, dataOf] at hab
      have h1 : ¬ ((data.length : Int) < a) := by omega
      have h2 : ¬ (a < 0) := by omega
      have h3 : ¬ (((data.drop a.toNat).length : Int) < b) := by
        simp only [List.length_drop]; omega
      have h4 : ¬ (b < 0) := by omega
      have h5 : ¬ ((data.length : Int) < a + b) := by omega
      have h6 : ¬ (a + b < 0) := by omega
      have hd : (data.drop a.toNat).drop b.toNat = data.drop (a + b).toNat := by
        rw [List.drop_drop]
        congr 1
        omega
      have hi : (items.drop a.toNat).drop b.toNat = items.drop (a + b).toNat := by
        rw [List.drop_drop]
        congr 1
        omega
      refine ⟨ViewList.root (data.drop a.toNat) (items.drop a.toNat) off,
        ViewList.root ((data.drop a.toNat).drop b.toNat) ((items.drop a.toNat).drop b.toNat) off,
        ?_, ?_, ?_⟩
      · rw [TrimStart]
        simp only [lengthVL, dataOf]
        rw [if_neg h1, if_neg h2]
      · rw [TrimStart]
        simp only [lengthVL, dataOf]
        rw [if_neg h3, if_neg h4]
      · rw [TrimStart]
        simp only [lengthVL, dataOf]
        rw [if_neg h5, if_neg h6, hd, hi]
    | child data items p off =>
      simp only [lengthVL, dataOf] at hab
      have h1 : ¬ ((data.length : Int) < a) := by omega
      have h2 : ¬ (a < 0) := by omega
      have h3 : ¬ (((data.drop a.toNat).length : Int) < b) := by
        simp only [List.length_drop]; omega
      have h4 : ¬ (b < 0) := by omega
      have h5 : ¬ ((data.length : Int) < a + b) := by omega
      have h6 : ¬ (a + b < 0) := by omega
      have hd : (data.drop a.toNat).drop b.toNat = data.drop (a + b).toNat := by
        rw [List.drop_drop]
        congr 1
        omega
      have hi : (items.drop a.toNat).drop b.toNat = items.drop (a + b).toNat := by
        rw [List.drop_drop]
        congr 1
        omega
      refine ⟨ViewList.child (data.drop a.toNat) (items.drop a.toNat) p (off + a),
        ViewList.child ((data.drop a.toNat).drop b.toNat) ((items.drop a.toNat).drop b.toNat) p
          (off + a + b), ?_, ?_, ?_⟩
      · rw [TrimStart]
        simp only [lengthVL, dataOf]
        rw [if_neg h1, if_neg h2]
      · rw [TrimStart]
        simp only [lengthVL, dataOf]
        rw [if_neg h3, if_neg h4]
      · rw [TrimStart]
        simp only [lengthVL, dataOf]
        rw [if_neg h5, if_neg h6, hd, hi]
        have hoff : off + (a + b) = off + a + b := by omega
        rw [hoff]
  · intro hm0 hm1
    cases v with
    | root data items off =>
      simp only [lengthVL, dataOf] at hm1
      refine ⟨ViewList.root (data.drop m.toNat) (items.drop m.toNat) off, ?_, rfl, ?_⟩
      · rw [TrimStart]
        simp only [lengthVL, dataOf]
        rw [if_neg (by omega : ¬ ((data.length : Int) < m)), if_neg (by omega : ¬ (m < (0 : Int)))]
      · simp [parentOf, parentOffsetOf]
    | child data items p off =>
      simp only [lengthVL, dataOf] at hm1
      refine ⟨ViewList.child (data.drop m.toNat) (items.drop m.toNat) p (off + m), ?_, rfl, ?_⟩
      · rw [TrimStart]
        simp only [lengthVL, dataOf]
        rw [if_neg (by omega : ¬ ((data.length : Int) < m)), if_neg (by omega : ¬ (m < (0 : Int)))]
      · simp [parentOf, parentOffsetOf]
  · intro hm0 hm1
    cases v with
    | root data items off =>
      simp only [lengthVL, dataOf] at hm1
      exact ⟨ViewList.root (data.take (data.length - m.toNat))
          (items.take (items.length - m.toNat)) off,
        by
          rw [TrimEnd]
          simp only [lengthVL, dataOf]
          rw [if_neg (by omega : ¬ ((data.length : Int) < m)), if_neg (by omega : ¬ (m < (0 : Int)))],
        rfl, rfl⟩
    | child data items p off =>
      simp only [lengthVL, dataOf] at hm1
      exact ⟨ViewList.child (data.take (data.length - m.toNat))
          (items.take (items.length - m.toNat)) p off,
        by
          rw [TrimEnd]
          simp only [lengthVL, dataOf]
          rw [if_neg (by omega : ¬ ((data.length : Int) < m)), if_neg (by omega : ¬ (m < (0 : Int)))],
        rfl, rfl⟩
  · intro hbad
    cases v with
    | root data items off =>
      simp only [lengthVL, dataOf] at hbad
      constructor
      · rw [TrimStart]
        simp only [lengthVL, dataOf]
        rcases hbad with h | h
        · rw [if_neg (by omega : ¬ ((data.length : Int) < n)), if_pos h]
        · rw [if_pos h]
      · rw [TrimEnd]
        simp only [lengthVL, dataOf]
        rcases hbad with h | h
        · rw [if_neg (by omega : ¬ ((data.length : Int) < n)), if_pos h]
        · rw [if_pos h]
    | child data items p off =>
      simp only [lengthVL, dataOf] at hbad
      constructor
      · rw [TrimStart]
        simp only [lengthVL, dataOf]
        rcases hbad with h | h
        · rw [if_neg (by omega : ¬ ((data.length : Int) < n)), if_pos h]
        · rw [if_pos h]
      · rw [TrimEnd]
        simp only [lengthVL, dataOf]
        rcases hbad with h | h
        · rw [if_neg (by omega : ¬ ((data.length : Int) < n)), if_pos h]
        · rw [if_pos h]

/-- C7: over a transition order [A, B], checkLine invokes A's method when
A's pattern matches (whatever B is); when A's pattern does not match and
B's does, it invokes B's method alone — the result does not depend on A's
method, so A's handler is never invoked; when neither matches, the state's
no-match handler is called with the order list, and the default no-match
returns the context unchanged, the "" stay sentinel and empty output;
feeding "" to getState (as run does with a returned stay sentinel) leaves
the current state name unchanged. -/
theorem c7_first_match_wins (st : State) (line : String) (context : Context)
    (sm : StateMachine) (nameA nameB : String) (tA tB : Transition)
    (horder : st.transitionOrder = [nameA, nameB])
    (hlkA : List.lookup nameA st.transitions = some tA)
    (hlkB : List.lookup nameB st.transitions = some tB)
    (hline : sm.line = line) :
    (tA.compiledPattern line ≠ [] →
      checkLineGo sm context (some st) none =
        some (tA.transitionMethod (tA.compiledPattern line) context tA.nextStateName)) ∧
    (tA.compiledPattern line = [] → tB.compiledPattern line ≠ [] →
      checkLineGo sm context (some st) none =
        some (tB.transitionMethod (tB.compiledPattern line) context tB.nextStateName)) ∧
    (tA.compiledPattern line = [] → tB.compiledPattern line = [] →
      checkLineGo sm context (some st) none = some (st.noMatch context [nameA, nameB])) ∧
    (∀ c ts, noMatchDefault c ts = (c, "", [])) ∧
    (getState sm "").1.currentState = sm.currentState := by
  refine ⟨?_, ?_, ?_, fun c ts => rfl, ?_⟩
  · intro hA
    simp [checkLineGo, checkLoop, horder, hline, hlkA, hA]
  · intro hA hB
    simp [checkLineGo, checkLoop, horder, hline, hlkA, hlkB, hA, hB]
  · intro hA hB
    simp [checkLineGo, checkLoop, horder, hline, hlkA, hlkB, hA, hB]
  · rw [getState]
    simp only [ne_eq, not_true_eq_false, if_false]
    cases List.lookup sm.currentState sm.states with
    | none => rfl
    | some s => rfl

/-- C1: on an empty bound view with a registered starting state, run with
no registered observers terminates normally and its internal results
accumulator is exactly the begin-of-input handler's output followed by
the end-of-input handler's output, for ANY transition tables (no
transition search can contribute); but the observer list is NOT cleared
(the final machine keeps it unchanged), the Go func has no return value
(the accumulator is dropped), and with at least one registered observer
the run panics: notifyObservers evaluates Info(0) on the empty list,
which indexes items[-1]. -/
theorem c1_run_empty_view (sm0 : StateMachine) (v : ViewList) (context : Context) (st : State)
    (hdata : dataOf v = []) (hitems : itemsOf v = [])
    (hreg : List.lookup sm0.initialState sm0.states = some st) :
    (sm0.observers = [] →
      ∃ sm1, run sm0 v 0 context "" =
          RunOutcome.normal sm1 ((st.bof context).2 ++ st.eof (st.bof context).1) ∧
        sm1.observers = sm0.observers) ∧
    (sm0.observers ≠ [] → run sm0 v 0 context "" = RunOutcome.panics) := by
  have hlen : lengthVL v = 0 := by simp [lengthVL, hdata]
  constructor
  · intro hobs
    have hrun : run sm0 v 0 context "" =
        RunOutcome.normal
          { sm0 with
            inputLines := v
            inputOffset := 0
            line := ""
            lineOffset := 0
            currentState := sm0.initialState }
          ((st.bof context).2 ++ st.eof (st.bof context).1) := by
      simp [run, getState, hreg, bofCall, eofCall, runLoop, nextLine, notifyObs, hlen, hobs,
        Except.toOption]
    exact ⟨_, hrun, rfl⟩
  · intro hobs
    have hne : sm0.observers.isEmpty = false := by
      cases h : sm0.observers with
      | nil => exact absurd h hobs
      | cons a l => rfl
    have hinfo : Info v 0 = InfoRes.panics := by
      rw [Info, hitems, hdata]
      norm_num
    simp [run, getState, hreg, bofCall, eofCall, runLoop, nextLine, notifyObs, hlen, hne,
      Except.toOption, hinfo]

/-- Witness for C6 at a concrete one-line view. -/
theorem c6_info_amended_witness :
    Info c6view 1 = InfoRes.ok ⟨lastSource c6view, -1⟩ ∧
    Info c6view 2 = InfoRes.indexErr ∧
    Info c6view (-2) = InfoRes.panics := by
  have h := c6_info_amended c6view 1 rfl rfl
  exact ⟨h.1 (by decide), h.2.1 2 (by decide), h.2.2.1 (-2) (by decide)⟩

/-- Witness for C8 at a concrete two-level chain. -/
theorem c8_set_then_get_witness :
    ∃ v1, SetItem c8view 0 "z" = some v1 ∧ GetItem v1 0 = Except.ok "z" ∧
      seesAt v1 0 "z" = true :=
  c8_set_then_get c8view 0 "z" (by decide) (by decide) (by decide)

/-- Witness for C9 at a concrete child view. -/
theorem c9_trim_algebra_witness :
    (∃ v1 v2, TrimStart c9view 1 = Except.ok v1 ∧ TrimStart v1 1 = Except.ok v2 ∧
      TrimStart c9view (1 + 1) = Except.ok v2) ∧
    (∃ v1, TrimStart c9view 1 = Except.ok v1 ∧ parentOf v1 = parentOf c9view) ∧
    (∃ v1, TrimEnd c9view 1 = Except.ok v1 ∧ parentOffsetOf v1 = parentOffsetOf c9view) ∧
    TrimStart c9view (-1) = Except.error GoErr.indexError := by
  have h := c9_trim_algebra c9view 1 1 1 (-1)
  refine ⟨h.1 (by decide) (by decide) (by decide), ?_, ?_, (h.2.2.2 (by decide)).1⟩
  · obtain ⟨v1, h1, h2, _⟩ := h.2.1 (by decide) (by decide)
    exact ⟨v1, h1, h2⟩
  · obtain ⟨v1, h1, _, h3⟩ := h.2.2.1 (by decide) (by decide)
    exact ⟨v1, h1, h3⟩

/-- Witness for C7 at the claim's example: the line matches only B, B's
handler output and stay sentinel come back, and the current state is
unchanged. -/
theorem c7_first_match_wins_witness :
    checkLineGo c7sm "" (some c7st) none = some ("", "", ["bout"]) ∧
    (getState c7sm "").1.currentState = "S1" := by
  have h := c7_first_match_wins c7st "b" "" c7sm "A" "B" c7tA c7tB rfl rfl rfl rfl
  exact ⟨(h.2.1 (by decide) (by decide)).trans rfl, h.2.2.2.2⟩

/-- Witness for C1: a machine with one observer and an empty view
panics. -/
theorem c1_run_empty_view_witness :
    run c1sm (ViewList.root [] [] 0) 0 "" "" = RunOutcome.panics := by
  have h := c1_run_empty_view c1sm (ViewList.root [] [] 0) "" c4state rfl rfl rfl
  exact h.2 (by decide)
